import Mathlib

/-!
Verification development for the iNaturalist MCP server
(src/server.ts, src/cli.ts).

The OAuth token lifecycle in src/server.ts is shallowly embedded here:
JavaScript numbers that can become NaN are modelled by `JsNumber`
(all arithmetic in the token code is exact integer arithmetic on
millisecond timestamps, so finite values are `Int`; the only
floating-point phenomenon that matters is `undefined * 1000 = NaN`
and the fact that comparisons with NaN are false), JavaScript
truthiness of strings and numbers is modelled explicitly, and the
`async` methods become pure functions that take the outcome of each
upstream network call as an explicit argument and return the new
cache state together with a flag recording whether they threw.
-/

namespace INatMCP

/-- A JavaScript number as it occurs in the token-cache code: either a
finite integer-valued number (a millisecond timestamp) or NaN, which
arises from `Date.now() + undefined * 1000` when the OAuth response
omits `expires_in`. -/
inductive JsNumber where
  | nan : JsNumber
  | num : Int → JsNumber
deriving DecidableEq, Repr

/-- JavaScript subtraction restricted to the values that occur here:
NaN is absorbing. -/
def jsSub : JsNumber → JsNumber → JsNumber
  | JsNumber.num a, JsNumber.num b => JsNumber.num (a - b)
  | _, _ => JsNumber.nan

/-- JavaScript `<` on numbers: any comparison involving NaN is false. -/
def jsLt : JsNumber → JsNumber → Bool
  | JsNumber.num a, JsNumber.num b => a < b
  | _, _ => false

/-- JavaScript truthiness of a `string | null` field: `null` and the
empty string are falsy. -/
def truthyStr : Option String → Bool
  | some s => s != ""
  | none => false

/-- JavaScript truthiness of a `number | null` field: `null`, `0` and
NaN are falsy. -/
def truthyNum : Option JsNumber → Bool
  | some (JsNumber.num n) => n != 0
  | _ => false

/-- JavaScript truthiness of a plain string (the `ServerConfig` fields
are non-nullable strings, with the empty string meaning unset). -/
def truthy (s : String) : Bool := s != ""

/-- src/server.ts `interface TokenCache` (lines 30-35): the credential
store. `accessToken`/`apiToken` are `string | null`, `expiresAt` and
`lastRefresh` are `number | null` millisecond timestamps. -/
structure TokenCache where
  accessToken : Option String
  apiToken : Option String
  expiresAt : Option JsNumber
  lastRefresh : Option JsNumber
deriving DecidableEq, Repr

/-- The initial cache (src/server.ts lines 59-64): every field null. -/
def emptyCache : TokenCache :=
  { accessToken := none, apiToken := none, expiresAt := none, lastRefresh := none }

/-- src/server.ts `interface ServerConfig` (lines 48-54). -/
structure ServerConfig where
  baseURL : String
  clientId : String
  clientSecret : String
  username : String
  password : String
deriving DecidableEq, Repr

/-- src/server.ts `isTokenValid` (lines 154-164):
returns false when `accessToken` or `expiresAt` is falsy, else
`now < expiresAt - bufferTime` with `bufferTime = 5 * 60 * 1000`. -/
def isTokenValid (c : TokenCache) (now : Int) : Bool :=
  if !(truthyStr c.accessToken) || !(truthyNum c.expiresAt) then
    false
  else
    match c.expiresAt with
    | some e => jsLt (JsNumber.num now) (jsSub e (JsNumber.num (5 * 60 * 1000)))
    | none => false

/-- The payload of a resolved `POST /oauth/token` call
(src/server.ts lines 182-191): the fields destructured by
`refreshAccessToken`. Each may be absent in a malformed response. -/
structure OAuthData where
  access_token : Option String
  expires_in : Option Int
  token_type : Option String
deriving DecidableEq, Repr

/-- Outcome of the upstream `post_oauth_token` network call: the
client either throws (network error or non-2xx status) or resolves
with a response whose `data` may itself be absent. -/
inductive ExchangeOutcome where
  | throws : ExchangeOutcome
  | response : Option OAuthData → ExchangeOutcome
deriving DecidableEq, Repr

/-- The payload of a resolved `get_users_api_token` call
(src/server.ts lines 225-228). -/
structure ApiData where
  api_token : Option String
deriving DecidableEq, Repr

/-- Outcome of the upstream `get_users_api_token` network call. -/
inductive ApiTokenOutcome where
  | throws : ApiTokenOutcome
  | response : Option ApiData → ApiTokenOutcome
deriving DecidableEq, Repr

/-- src/server.ts `getApiToken` (lines 223-238): store the secondary
token when the call resolves with a truthy `api_token`; any throw is
caught and only logged, leaving the cache untouched. (The subsequent
`fetchUserInfo` call never touches the token cache and catches its
own errors, so it is not modelled.) -/
def getApiToken (api : ApiTokenOutcome) (c : TokenCache) : TokenCache :=
  match api with
  | ApiTokenOutcome.throws => c
  | ApiTokenOutcome.response d =>
    match d with
    | some dd =>
      if truthyStr dd.api_token then { c with apiToken := dd.api_token } else c
    | none => c

/-- src/server.ts line 194: `Date.now() + expires_in * 1000`.
When the response omits `expires_in`, the JavaScript expression is
`Date.now() + undefined * 1000 = NaN`. -/
def computeExpiresAt (now : Int) (expires_in : Option Int) : JsNumber :=
  match expires_in with
  | some n => JsNumber.num (now + n * 1000)
  | none => JsNumber.nan

/-- src/server.ts `refreshAccessToken` (lines 166-221) as a function
of the outcomes of the two upstream calls. Returns
`(threw, new cache)`: on a throw of the exchange, or on a resolved
response without a truthy `access_token`, the catch block logs and
rethrows (`threw = true`) and the cache is left as it was; on success
the three primary fields are written and `getApiToken` runs
(best-effort, never throws). -/
def refreshAccessToken (now : Int) (ex : ExchangeOutcome) (api : ApiTokenOutcome)
    (c : TokenCache) : Bool × TokenCache :=
  match ex with
  | ExchangeOutcome.throws => (true, c)
  | ExchangeOutcome.response d =>
    match d with
    | some dd =>
      if truthyStr dd.access_token then
        let c1 : TokenCache :=
          { c with
            accessToken := dd.access_token,
            expiresAt := some (computeExpiresAt now dd.expires_in),
            lastRefresh := some (JsNumber.num now) }
        (false, getApiToken api c1)
      else (true, c)
    | none => (true, c)

/-- True when the exchange outcome takes `refreshAccessToken` into its
failure (rethrow) path. -/
def exchangeFailed : ExchangeOutcome → Bool
  | ExchangeOutcome.throws => true
  | ExchangeOutcome.response d =>
    match d with
    | some dd => !(truthyStr dd.access_token)
    | none => true

/-- Result of one `ensureValidToken` run: whether a refresh (exchange
network call) was attempted, whether the run threw, and the cache
afterwards. -/
structure EVTResult where
  attempted : Bool
  threw : Bool
  cache : TokenCache
deriving DecidableEq, Repr

/-- src/server.ts `ensureValidToken` (lines 277-286): return
immediately when `clientId`/`clientSecret` are falsy or the cached
token is valid; otherwise call `refreshAccessToken` with no
surrounding try/catch, so its throw propagates. -/
def ensureValidToken (cfg : ServerConfig) (now : Int) (ex : ExchangeOutcome)
    (api : ApiTokenOutcome) (c : TokenCache) : EVTResult :=
  if !(truthy cfg.clientId) || !(truthy cfg.clientSecret) then
    { attempted := false, threw := false, cache := c }
  else if isTokenValid c now then
    { attempted := false, threw := false, cache := c }
  else
    let r := refreshAccessToken now ex api c
    { attempted := true, threw := r.1, cache := r.2 }

/-- src/server.ts `ensureAuthentication` (lines 125-152): returns
early without credentials or with a valid token plus both tokens
cached; otherwise refreshes inside a try/catch that swallows the
failure (logging a fallback to read-only access), so it never
throws. -/
def ensureAuthentication (cfg : ServerConfig) (now : Int) (ex : ExchangeOutcome)
    (api : ApiTokenOutcome) (c : TokenCache) : TokenCache :=
  if !(truthy cfg.clientId) || !(truthy cfg.clientSecret) then c
  else if isTokenValid c now && truthyStr c.accessToken && truthyStr c.apiToken then c
  else (refreshAccessToken now ex api c).2

end INatMCP

namespace INatMCP

/-- C1: the credential validity check. An `isTokenValid` run at `now`
is true iff a non-empty access token is stored, a finite expiry
instant is stored, and `now` is strictly before that instant minus the
5-minute buffer (300000 ms); and for a cache holding
`expiresAt = now + d` the check at `now` is true exactly when
`d > 300000` (so 4 min 59 s gives false and 5 min 1 s gives true).
Stated for `0 <= now` (`Date.now()` values) and for caches that do not
store the empty string as a token, which the store never does. -/
theorem isTokenValid_spec :
    (∀ (c : TokenCache) (now : Int), 0 ≤ now → c.accessToken ≠ some "" →
      (isTokenValid c now = true ↔
        (c.accessToken.isSome ∧
          ∃ e : Int, c.expiresAt = some (JsNumber.num e) ∧ now < e - 5 * 60 * 1000))) ∧
    (∀ (now d : Int) (s : String) (api : Option String) (lr : Option JsNumber),
      0 ≤ now → s ≠ "" →
      isTokenValid
        { accessToken := some s, apiToken := api,
          expiresAt := some (JsNumber.num (now + d)), lastRefresh := lr } now =
        decide (5 * 60 * 1000 < d)) := by
  constructor
  · rintro ⟨at_, api, ex, lr⟩ now hnow htok
    simp only [Option.some.injEq] at htok ⊢
    match at_, ex with
    | none, ex =>
      simp [isTokenValid, truthyStr]
    | some s, none =>
      simp [isTokenValid, truthyNum]
    | some s, some JsNumber.nan =>
      simp [isTokenValid, truthyNum]
    | some s, some (JsNumber.num e) =>
      have hs : s ≠ "" := fun h => htok (by simp [h])
      by_cases he : e = 0
      · subst he
        simp [isTokenValid, truthyStr, truthyNum, hs, jsLt, jsSub]
        omega
      · simp [isTokenValid, truthyStr, truthyNum, hs, he, jsLt, jsSub]
  · intro now d s api lr hnow hs
    by_cases hz : now + d = 0
    · have hd : ¬ (5 * 60 * 1000 < d) := by omega
      simp [isTokenValid, truthyStr, truthyNum, hz, hs, hd]
      omega
    · simp only [isTokenValid, truthyStr, truthyNum, jsLt, jsSub]
      have h1 : ((now + d : Int) != 0) = true := by simpa using hz
      have h2 : (s != "") = true := by simpa using hs
      rw [if_neg (by simp [h1, h2])]
      simp only [decide_eq_decide]
      constructor <;> (intro h; omega)

/-- C1 witness: the spec's test points, 4 min 59 s (299000 ms, invalid)
and 5 min 1 s (301000 ms, valid), evaluated through the theorem at
`now = 0` with token "abc". -/
theorem isTokenValid_spec_witness :
    isTokenValid
      { accessToken := some "abc", apiToken := none,
        expiresAt := some (JsNumber.num (0 + 299000)), lastRefresh := none } 0 = false ∧
    isTokenValid
      { accessToken := some "abc", apiToken := none,
        expiresAt := some (JsNumber.num (0 + 301000)), lastRefresh := none } 0 = true := by
  constructor
  · rw [isTokenValid_spec.2 0 299000 "abc" none none (by omega) (by decide)]
    decide
  · rw [isTokenValid_spec.2 0 301000 "abc" none none (by omega) (by decide)]
    decide

end INatMCP

namespace INatMCP

/-- C2 counterexample: for the exchange response with
`access_token = "x"` and no `expires_in`, obtained at instant 0, the
stored expiry is NOT `0 + 3600 * 1000` (the claimed 3600-second
default); no default TTL is applied anywhere in
`refreshAccessToken`. -/
theorem missingTTL_counterexample :
    ((refreshAccessToken 0
        (ExchangeOutcome.response
          (some { access_token := some "x", expires_in := none, token_type := none }))
        ApiTokenOutcome.throws emptyCache).2).expiresAt ≠
      some (JsNumber.num (0 + 3600 * 1000)) := by
  decide

/-- C2 amended: when the exchange response contains a truthy
`access_token` but omits `expires_in`, the code stores
`expiresAt = Date.now() + undefined * 1000 = NaN` (no 3600-second
default). Because every comparison with NaN is false and NaN is
falsy, `isTokenValid` is subsequently false at every instant: the
missing TTL is indeed never treated as a token that does not expire —
the token is never considered valid at all. -/
theorem missingTTL_nan_never_valid :
    ∀ (c : TokenCache) (api : ApiTokenOutcome) (now : Int),
      ((refreshAccessToken now
          (ExchangeOutcome.response
            (some { access_token := some "x", expires_in := none, token_type := none }))
          api c).2).expiresAt = some JsNumber.nan ∧
      ∀ t : Int,
        isTokenValid
          ((refreshAccessToken now
              (ExchangeOutcome.response
                (some { access_token := some "x", expires_in := none, token_type := none }))
              api c).2) t = false := by
  intro c api now
  have key : ((refreshAccessToken now
      (ExchangeOutcome.response
        (some { access_token := some "x", expires_in := none, token_type := none }))
      api c).2).expiresAt = some JsNumber.nan := by
    cases api with
    | throws => simp [refreshAccessToken, getApiToken, truthyStr, computeExpiresAt]
    | response d =>
      cases d with
      | none => simp [refreshAccessToken, getApiToken, truthyStr, computeExpiresAt]
      | some dd =>
        simp [refreshAccessToken, getApiToken, truthyStr, computeExpiresAt]
        split <;> rfl
  refine ⟨key, fun t => ?_⟩
  simp [isTokenValid, truthyNum, key]

end INatMCP

namespace INatMCP

/-- True when the `get_users_api_token` outcome leaves `getApiToken`
without a stored secondary token (throw, missing data, or falsy
`api_token`). -/
def apiFailed : ApiTokenOutcome → Bool
  | ApiTokenOutcome.throws => true
  | ApiTokenOutcome.response d =>
    match d with
    | some dd => !(truthyStr dd.api_token)
    | none => false

/-- `getApiToken` touches only the `apiToken` field, whatever the
outcome of the upstream call. -/
theorem getApiToken_preserves_primary (api : ApiTokenOutcome) (c : TokenCache) :
    (getApiToken api c).accessToken = c.accessToken ∧
    (getApiToken api c).expiresAt = c.expiresAt ∧
    (getApiToken api c).lastRefresh = c.lastRefresh := by
  cases api with
  | throws => exact ⟨rfl, rfl, rfl⟩
  | response d =>
    cases d with
    | none => exact ⟨rfl, rfl, rfl⟩
    | some dd =>
      simp only [getApiToken]
      split <;> exact ⟨rfl, rfl, rfl⟩

/-- `isTokenValid` reads only `accessToken` and `expiresAt`. -/
theorem isTokenValid_congr (c c' : TokenCache)
    (h1 : c.accessToken = c'.accessToken) (h2 : c.expiresAt = c'.expiresAt)
    (t : Int) : isTokenValid c t = isTokenValid c' t := by
  simp [isTokenValid, h1, h2]

/-- C4 counterexample: a stale cache, a definitively failing exchange
(the upstream throws). `refreshAccessToken` rethrows but the
credential store is NOT cleared: every field still holds its stale
value, and the access token in particular is not reset to absent. -/
theorem refreshFailure_no_clear_counterexample :
    (refreshAccessToken 1000000 ExchangeOutcome.throws ApiTokenOutcome.throws
        { accessToken := some "old", apiToken := some "oldapi",
          expiresAt := some (JsNumber.num 100),
          lastRefresh := some (JsNumber.num 0) }).2 =
      { accessToken := some "old", apiToken := some "oldapi",
        expiresAt := some (JsNumber.num 100),
        lastRefresh := some (JsNumber.num 0) } ∧
    (refreshAccessToken 1000000 ExchangeOutcome.throws ApiTokenOutcome.throws
        { accessToken := some "old", apiToken := some "oldapi",
          expiresAt := some (JsNumber.num 100),
          lastRefresh := some (JsNumber.num 0) }).2.accessToken ≠ none := by
  decide

/-- C4 amended: when a refresh attempt definitively fails, the
credential store is left exactly unchanged (there is no clear
operation in the code); in particular the validity check afterwards
returns exactly what it returned before, so on the
`ensureValidToken` path - which only refreshes when the cached token
is already invalid - no stale token becomes servable through the
failure. -/
theorem refreshFailure_leaves_cache_unchanged :
    ∀ (now : Int) (ex : ExchangeOutcome) (api : ApiTokenOutcome) (c : TokenCache),
      exchangeFailed ex = true →
      refreshAccessToken now ex api c = (true, c) ∧
      ∀ t : Int, isTokenValid (refreshAccessToken now ex api c).2 t = isTokenValid c t := by
  intro now ex api c h
  match ex with
  | ExchangeOutcome.throws => exact ⟨rfl, fun t => rfl⟩
  | ExchangeOutcome.response none => exact ⟨rfl, fun t => rfl⟩
  | ExchangeOutcome.response (some dd) =>
    have h' : truthyStr dd.access_token = false := by
      simpa [exchangeFailed] using h
    refine ⟨?_, fun t => ?_⟩ <;> simp [refreshAccessToken, h']

/-- C4 witness: the amended theorem evaluated on a throwing exchange
against the empty cache. -/
theorem refreshFailure_leaves_cache_unchanged_witness :
    refreshAccessToken 5 ExchangeOutcome.throws ApiTokenOutcome.throws emptyCache =
      (true, emptyCache) :=
  (refreshFailure_leaves_cache_unchanged 5 ExchangeOutcome.throws
    ApiTokenOutcome.throws emptyCache (by decide)).1

/-- C7: secondary-token independence. A failing `get_users_api_token`
call leaves the cache exactly as `refreshAccessToken` wrote it: the
primary access token and its expiry are those of the successful
exchange, the secondary token keeps its previous value (absent when
it was absent), and the result of `isTokenValid` does not depend on
the secondary-token outcome at all. -/
theorem secondaryToken_independence :
    (∀ (api : ApiTokenOutcome) (c : TokenCache),
      apiFailed api = true → getApiToken api c = c) ∧
    (∀ (now : Int) (dd : OAuthData) (api : ApiTokenOutcome) (c : TokenCache),
      truthyStr dd.access_token = true → apiFailed api = true →
      ((refreshAccessToken now (ExchangeOutcome.response (some dd)) api c).2.accessToken
          = dd.access_token ∧
       (refreshAccessToken now (ExchangeOutcome.response (some dd)) api c).2.expiresAt
          = some (computeExpiresAt now dd.expires_in) ∧
       (refreshAccessToken now (ExchangeOutcome.response (some dd)) api c).2.apiToken
          = c.apiToken ∧
       ∀ (api' : ApiTokenOutcome) (t : Int),
         isTokenValid (refreshAccessToken now (ExchangeOutcome.response (some dd)) api c).2 t
           = isTokenValid (refreshAccessToken now (ExchangeOutcome.response (some dd)) api' c).2 t)) := by
  have hfail : ∀ (api : ApiTokenOutcome) (c : TokenCache),
      apiFailed api = true → getApiToken api c = c := by
    intro api c h
    match api with
    | ApiTokenOutcome.throws => rfl
    | ApiTokenOutcome.response none => rfl
    | ApiTokenOutcome.response (some dd) =>
      have h' : truthyStr dd.api_token = false := by
        simpa [apiFailed] using h
      simp [getApiToken, h']
  refine ⟨hfail, ?_⟩
  intro now dd api c hacc hapi
  simp only [refreshAccessToken, hacc, if_pos]
  rw [hfail api _ hapi]
  refine ⟨rfl, rfl, rfl, ?_⟩
  intro api' t
  apply isTokenValid_congr
  · exact ((getApiToken_preserves_primary api' _).1).symm
  · exact ((getApiToken_preserves_primary api' _).2.1).symm

/-- C7 witness: after a successful exchange for token "abc" with a
3600-second TTL at instant 0 and a throwing secondary-token call
against the empty cache, the primary token and expiry are stored, the
secondary token stays absent, and validity at instant 0 is unaffected
by the secondary outcome. -/
theorem secondaryToken_independence_witness :
    ((refreshAccessToken 0
        (ExchangeOutcome.response
          (some { access_token := some "abc", expires_in := some 3600, token_type := none }))
        ApiTokenOutcome.throws emptyCache).2.accessToken = some "abc" ∧
     (refreshAccessToken 0
        (ExchangeOutcome.response
          (some { access_token := some "abc", expires_in := some 3600, token_type := none }))
        ApiTokenOutcome.throws emptyCache).2.apiToken = none) := by
  have h := (secondaryToken_independence.2 0
    { access_token := some "abc", expires_in := some 3600, token_type := none }
    ApiTokenOutcome.throws emptyCache (by decide) (by decide))
  exact ⟨h.1, h.2.2.1⟩

end INatMCP

namespace INatMCP

/-- C8: degradation idempotence. (a) Whether `ensureValidToken`
attempts an exchange is a function of the configured credentials and
the current validity check alone - there is no lockout, circuit
breaker or backoff state consulted. (b) A failed exchange leaves the
cache unchanged, so nothing accumulates across failed calls and every
later call re-evaluates validity on the same state. (c) Any retry
whose exchange succeeds (truthy token, TTL beyond the 5-minute
buffer) independently ends with a valid cache. -/
theorem degradation_idempotence :
    (∀ (cfg : ServerConfig) (now : Int) (ex : ExchangeOutcome)
        (api : ApiTokenOutcome) (c : TokenCache),
      (ensureValidToken cfg now ex api c).attempted =
        (truthy cfg.clientId && truthy cfg.clientSecret && !(isTokenValid c now))) ∧
    (∀ (cfg : ServerConfig) (now : Int) (ex : ExchangeOutcome)
        (api : ApiTokenOutcome) (c : TokenCache),
      exchangeFailed ex = true → (ensureValidToken cfg now ex api c).cache = c) ∧
    (∀ (cfg : ServerConfig) (now ttl : Int) (s : String)
        (api : ApiTokenOutcome) (c : TokenCache),
      truthy cfg.clientId = true → truthy cfg.clientSecret = true →
      isTokenValid c now = false → 0 ≤ now → s ≠ "" → 5 * 60 * 1000 < ttl * 1000 →
      (ensureValidToken cfg now
          (ExchangeOutcome.response
            (some { access_token := some s, expires_in := some ttl, token_type := none }))
          api c).threw = false ∧
      isTokenValid
        (ensureValidToken cfg now
            (ExchangeOutcome.response
              (some { access_token := some s, expires_in := some ttl, token_type := none }))
            api c).cache now = true) := by
  refine ⟨?_, ?_, ?_⟩
  · intro cfg now ex api c
    by_cases h1 : (!(truthy cfg.clientId) || !(truthy cfg.clientSecret)) = true
    · simp only [ensureValidToken, if_pos h1]
      simp only [Bool.or_eq_true, Bool.not_eq_true'] at h1
      rcases h1 with h | h <;> simp [h]
    · simp only [ensureValidToken, if_neg h1]
      simp only [Bool.or_eq_true, Bool.not_eq_true'] at h1
      push_neg at h1
      obtain ⟨ha, hb⟩ := h1
      rw [Bool.ne_false_iff] at ha hb
      by_cases h2 : isTokenValid c now = true
      · simp [h2, ha, hb]
      · rw [Bool.not_eq_true] at h2
        simp [h2, ha, hb]
  · intro cfg now ex api c h
    simp only [ensureValidToken]
    split
    · rfl
    · split
      · rfl
      · simp [(refreshFailure_leaves_cache_unchanged now ex api c h).1]
  · intro cfg now ttl s api c ha hb hv hnow hs httl
    have hst : truthyStr (some s) = true := by
      simp only [truthyStr]
      simpa using hs
    have hcond : (!(truthy cfg.clientId) || !(truthy cfg.clientSecret)) = false := by
      simp [ha, hb]
    simp only [ensureValidToken, hcond, Bool.false_eq_true, if_false, hv, if_false]
    simp only [refreshAccessToken, hst, if_pos]
    constructor
    · trivial
    · have hpre := getApiToken_preserves_primary api
        { accessToken := some s,
          apiToken := c.apiToken,
          expiresAt := some (computeExpiresAt now (some ttl)),
          lastRefresh := some (JsNumber.num now) }
      rw [isTokenValid_congr _
        { accessToken := some s,
          apiToken := c.apiToken,
          expiresAt := some (computeExpiresAt now (some ttl)),
          lastRefresh := some (JsNumber.num now) } hpre.1 hpre.2.1 now]
      have hz : now + ttl * 1000 ≠ 0 := by omega
      simp only [isTokenValid, computeExpiresAt, truthyStr, truthyNum, jsSub, jsLt]
      rw [if_neg]
      · simp only [decide_eq_true_eq]
        omega
      · simp [hs, hz]

/-- C8 witness: a retry against an empty (invalid) cache with full
credentials and a succeeding exchange (token "abc", TTL 3600 s) does
not throw and ends with a valid cache. -/
theorem degradation_idempotence_witness :
    (ensureValidToken
        { baseURL := "", clientId := "id", clientSecret := "sec",
          username := "u", password := "p" } 0
        (ExchangeOutcome.response
          (some { access_token := some "abc", expires_in := some 3600, token_type := none }))
        ApiTokenOutcome.throws emptyCache).threw = false ∧
    isTokenValid
      (ensureValidToken
          { baseURL := "", clientId := "id", clientSecret := "sec",
            username := "u", password := "p" } 0
          (ExchangeOutcome.response
            (some { access_token := some "abc", expires_in := some 3600, token_type := none }))
          ApiTokenOutcome.throws emptyCache).cache 0 = true :=
  degradation_idempotence.2.2
    { baseURL := "", clientId := "id", clientSecret := "sec",
      username := "u", password := "p" } 0 3600 "abc"
    ApiTokenOutcome.throws emptyCache
    (by decide) (by decide) (by decide) (by omega) (by decide) (by omega)

end INatMCP

namespace INatMCP

/-- A fully configured `ServerConfig` used for concrete runs. -/
def cfgFull : ServerConfig :=
  { baseURL := "", clientId := "id", clientSecret := "sec",
    username := "user", password := "pass" }

/-- The cache produced by a successful exchange at instant 0 returning
`{access_token: "abc", expires_in: 10}` (secondary-token call
throwing): `accessToken = "abc"`, `expiresAt = 10000 ms`. -/
def cacheAbc10 : TokenCache :=
  (refreshAccessToken 0
      (ExchangeOutcome.response
        (some { access_token := some "abc", expires_in := some 10,
                token_type := some "Bearer" }))
      ApiTokenOutcome.throws emptyCache).2

/-- C6 counterexample: after the exchange returning "abc" with
`expires_in = 10` at instant 0, a privileged call at instant +4 s does
NOT reuse "abc": `ensureValidToken` attempts a new exchange, because
the remaining 6 s of lifetime are already inside the 5-minute buffer
and `isTokenValid` is false. -/
theorem shortTTL_reuse_counterexample :
    cacheAbc10.accessToken = some "abc" ∧
    cacheAbc10.expiresAt = some (JsNumber.num 10000) ∧
    isTokenValid cacheAbc10 4000 = false ∧
    (ensureValidToken cfgFull 4000 ExchangeOutcome.throws
        ApiTokenOutcome.throws cacheAbc10).attempted = true := by
  decide

/-- C6 amended: with `expires_in = 10` the whole 10-second lifetime
lies inside the 5-minute validity buffer, so privileged calls at both
+4 s and +6 s each trigger exactly one new exchange (one
`refreshAccessToken` call each, `attempted = true`); reuse of a
cached token without a network call requires more than 5 minutes of
remaining lifetime - for instance after an exchange with
`expires_in = 3600` a call at +4 s attempts no exchange and leaves
the cache untouched. -/
theorem shortTTL_always_refreshes :
    (ensureValidToken cfgFull 4000 ExchangeOutcome.throws
        ApiTokenOutcome.throws cacheAbc10).attempted = true ∧
    (ensureValidToken cfgFull 6000 ExchangeOutcome.throws
        ApiTokenOutcome.throws cacheAbc10).attempted = true ∧
    (let c36 := (refreshAccessToken 0
        (ExchangeOutcome.response
          (some { access_token := some "abc", expires_in := some 3600,
                  token_type := some "Bearer" }))
        ApiTokenOutcome.throws emptyCache).2
     (ensureValidToken cfgFull 4000 ExchangeOutcome.throws
        ApiTokenOutcome.throws c36).attempted = false ∧
     (ensureValidToken cfgFull 4000 ExchangeOutcome.throws
        ApiTokenOutcome.throws c36).cache = c36 ∧
     c36.accessToken = some "abc") := by
  decide

end INatMCP

namespace INatMCP

/-- src/server.ts `interface ToolDefinition` (lines 16-22); the
`inputSchema` field is static JSON never consulted by the dispatch
logic and is omitted. -/
structure ToolDefinition where
  name : String
  description : String
  module : String
  methods : List String
deriving DecidableEq, Repr

/-- The mutable server fields consulted by the tool-call path:
whether `this.client` has been created, and the token cache. -/
structure ServerState where
  hasClient : Bool
  cache : TokenCache
deriving DecidableEq, Repr

/-- src/server.ts `ensureClient` (lines 102-123): on the first call it
throws when `clientId`/`clientSecret` are truthy but `username` or
`password` is not (password-credentials flow misconfiguration),
otherwise creates the client and runs `ensureAuthentication`, whose
own try/catch swallows any exchange failure. -/
def ensureClient (cfg : ServerConfig) (now : Int) (ex : ExchangeOutcome)
    (api : ApiTokenOutcome) (s : ServerState) : Except Unit ServerState :=
  if s.hasClient then Except.ok s
  else if truthy cfg.clientId && truthy cfg.clientSecret &&
      !(truthy cfg.username && truthy cfg.password) then
    Except.error ()
  else
    Except.ok { hasClient := true, cache := ensureAuthentication cfg now ex api s.cache }

/-- Error message of src/server.ts line 516 (ASCII quotes elided). -/
def missingMethodMsg (ms : List String) : String :=
  "Missing required parameter method. Available methods: " ++ String.intercalate ", " ms

/-- Error message of src/server.ts line 520 (ASCII quotes elided). -/
def invalidMethodMsg (m : String) (ms : List String) : String :=
  "Invalid method " ++ m ++ ". Available methods: " ++ String.intercalate ", " ms

/-- Error message of src/server.ts line 529. -/
def moduleNotFoundMsg (mo : String) : String :=
  "Module " ++ mo ++ " not found"

/-- Error message of src/server.ts line 534. -/
def methodNotFoundMsg (me mo : String) : String :=
  "Method " ++ me ++ " not found in module " ++ mo

/-- How a `callModularTool` invocation can throw. The request handler
(src/server.ts lines 347-402) catches all of these and renders them
as an error text response; what matters here is which one escapes
`callModularTool`. -/
inductive ToolError where
  /-- The flow-misconfiguration throw of `ensureClient`. -/
  | clientConfigError : ToolError
  /-- A refresh failure rethrown by `refreshAccessToken` and
  propagated through `ensureValidToken` (src/server.ts line 513),
  which has no try/catch of its own. -/
  | authRefreshFailed : ToolError
  /-- One of the validation throws of lines 515-534. -/
  | message : String → ToolError
deriving DecidableEq, Repr

/-- src/server.ts `callModularTool` (lines 510-555):
`ensureClient`, then `ensureValidToken` (whose throw propagates),
then method validation against `tool.methods`, then module/method
lookup on the upstream client (abstracted as the predicates
`hasModule`/`hasMethod`), and only then the dispatch, modelled as the
`Except.ok (module, method)` result. `setAppropriateToken` only
installs a bearer token on the client object and touches no state
modelled here. -/
def callModularTool (cfg : ServerConfig) (now : Int) (ex : ExchangeOutcome)
    (api : ApiTokenOutcome) (hasModule : String → Bool)
    (hasMethod : String → String → Bool) (tool : ToolDefinition)
    (argsMethod : Option String) (s : ServerState) :
    Except ToolError (String × String) × ServerState :=
  match ensureClient cfg now ex api s with
  | Except.error _ => (Except.error ToolError.clientConfigError, s)
  | Except.ok s1 =>
    let r := ensureValidToken cfg now ex api s1.cache
    let s2 : ServerState := { s1 with cache := r.cache }
    if r.threw then (Except.error ToolError.authRefreshFailed, s2)
    else if !(truthyStr argsMethod) then
      (Except.error (ToolError.message (missingMethodMsg tool.methods)), s2)
    else
      let m := argsMethod.getD ""
      if !(tool.methods.contains m) then
        (Except.error (ToolError.message (invalidMethodMsg m tool.methods)), s2)
      else if !(hasModule tool.module) then
        (Except.error (ToolError.message (moduleNotFoundMsg tool.module)), s2)
      else if !(hasMethod tool.module m) then
        (Except.error (ToolError.message (methodNotFoundMsg m tool.module)), s2)
      else (Except.ok (tool.module, m), s2)

end INatMCP

namespace INatMCP

/-- A concrete tool definition for concrete runs. -/
def toolObs : ToolDefinition :=
  { name := "observations_manage", description := "",
    module := "observations", methods := ["get_observations"] }

/-- C3 counterexample: complete credentials, client already created,
empty cache, failing exchange. The tool call returns the refresh
failure thrown out of `ensureValidToken`: the authentication failure
is NOT caught at the token-manager boundary but propagates into the
tool-call path, and the call fails instead of proceeding in degraded
unauthenticated mode. -/
theorem authFailure_propagates_counterexample :
    (callModularTool cfgFull 0 ExchangeOutcome.throws ApiTokenOutcome.throws
        (fun _ => true) (fun _ _ => true) toolObs (some "get_observations")
        { hasClient := true, cache := emptyCache }).1 =
      Except.error ToolError.authRefreshFailed := by
  rfl

/-- C3 amended: (a) `ensureClient` throws only for the
flow-misconfiguration case, never for an exchange failure - the
failure of the eager refresh inside `ensureAuthentication` is caught
there; (b) but `ensureValidToken` has no guard, so with all four
credentials configured, an invalid cached token and a failing
exchange, every tool call - whether or not the client already exists -
propagates the failure out of the manager and fails with it rather
than degrading to unauthenticated mode; (c) only when `clientId` or
`clientSecret` is unconfigured does the call proceed without
authentication. -/
theorem authFailure_propagation :
    (∀ (cfg : ServerConfig) (now : Int) (ex : ExchangeOutcome)
        (api : ApiTokenOutcome) (s : ServerState),
      ensureClient cfg now ex api s = Except.error () ↔
        (s.hasClient = false ∧
          (truthy cfg.clientId && truthy cfg.clientSecret &&
            !(truthy cfg.username && truthy cfg.password)) = true)) ∧
    (∀ (cfg : ServerConfig) (now : Int) (ex : ExchangeOutcome)
        (api : ApiTokenOutcome) (hm : String → Bool)
        (hmeth : String → String → Bool) (tool : ToolDefinition)
        (am : Option String) (s : ServerState),
      truthy cfg.clientId = true → truthy cfg.clientSecret = true →
      truthy cfg.username = true → truthy cfg.password = true →
      exchangeFailed ex = true → isTokenValid s.cache now = false →
      (callModularTool cfg now ex api hm hmeth tool am s).1 =
        Except.error ToolError.authRefreshFailed) ∧
    (∀ (cfg : ServerConfig) (now : Int) (ex : ExchangeOutcome)
        (api : ApiTokenOutcome) (hm : String → Bool)
        (hmeth : String → String → Bool) (tool : ToolDefinition)
        (am : Option String) (s : ServerState),
      (truthy cfg.clientId = false ∨ truthy cfg.clientSecret = false) →
      (callModularTool cfg now ex api hm hmeth tool am s).1 ≠
          Except.error ToolError.authRefreshFailed ∧
      (callModularTool cfg now ex api hm hmeth tool am s).1 ≠
          Except.error ToolError.clientConfigError) := by
  refine ⟨?_, ?_, ?_⟩
  · intro cfg now ex api s
    by_cases hc : s.hasClient
    · simp [ensureClient, hc]
    · simp only [ensureClient, hc, Bool.false_eq_true, if_false]
      by_cases hcond : (truthy cfg.clientId && truthy cfg.clientSecret &&
          !(truthy cfg.username && truthy cfg.password)) = true
      · rw [if_pos hcond]
        exact iff_of_true rfl ⟨by simp [hc], hcond⟩
      · rw [if_neg hcond]
        constructor
        · intro h
          exact absurd h (by simp)
        · rintro ⟨-, h2⟩
          exact absurd h2 hcond
  · intro cfg now ex api hm hmeth tool am s h1 h2 h3 h4 hex hval
    have hrefresh := (refreshFailure_leaves_cache_unchanged now ex api s.cache hex).1
    have hca : ensureAuthentication cfg now ex api s.cache = s.cache := by
      simp [ensureAuthentication, h1, h2, hval, hrefresh]
    have hevt : ensureValidToken cfg now ex api s.cache =
        { attempted := true, threw := true, cache := s.cache } := by
      simp [ensureValidToken, h1, h2, hval, hrefresh]
    by_cases hc : s.hasClient
    · have hec : ensureClient cfg now ex api s = Except.ok s := by
        simp [ensureClient, hc]
      simp [callModularTool, hec, hevt]
    · have hec : ensureClient cfg now ex api s =
          Except.ok { hasClient := true, cache := s.cache } := by
        simp [ensureClient, hc, h3, h4, hca]
      simp [callModularTool, hec, hevt]
  · intro cfg now ex api hm hmeth tool am s h
    have hcond : (!(truthy cfg.clientId) || !(truthy cfg.clientSecret)) = true := by
      rcases h with h | h <;> simp [h]
    have hevt : ∀ c : TokenCache, ensureValidToken cfg now ex api c =
        { attempted := false, threw := false, cache := c } := by
      intro c
      simp [ensureValidToken, hcond]
    have hec : ∃ s1, ensureClient cfg now ex api s = Except.ok s1 := by
      by_cases hc : s.hasClient
      · exact ⟨s, by simp [ensureClient, hc]⟩
      · refine ⟨{ hasClient := true,
                  cache := ensureAuthentication cfg now ex api s.cache }, ?_⟩
        simp only [ensureClient, hc, Bool.false_eq_true, if_false]
        rw [if_neg (by rcases h with h | h <;> simp [h])]
    obtain ⟨s1, hec⟩ := hec
    simp only [callModularTool, hec, hevt]
    simp only [Bool.false_eq_true, if_false]
    constructor <;> intro hcontra <;>
      (repeat' split at hcontra) <;> simp at hcontra

/-- C3 witness: the amended theorem's propagation case evaluated on a
first-ever tool call (no client yet) with full credentials, empty
cache and a throwing exchange. -/
theorem authFailure_propagation_witness :
    (callModularTool cfgFull 0 ExchangeOutcome.throws ApiTokenOutcome.throws
        (fun _ => true) (fun _ _ => true) toolObs (some "get_observations")
        { hasClient := false, cache := emptyCache }).1 =
      Except.error ToolError.authRefreshFailed :=
  authFailure_propagation.2.1 cfgFull 0 ExchangeOutcome.throws ApiTokenOutcome.throws
    (fun _ => true) (fun _ _ => true) toolObs (some "get_observations")
    { hasClient := false, cache := emptyCache }
    (by decide) (by decide) (by decide) (by decide) (by decide) (by decide)

end INatMCP

namespace INatMCP

/-- True when the authentication phase of a tool call (client
creation followed by `ensureValidToken`) completes without a throw,
so that control reaches the method-validation code of
`callModularTool`. -/
def authPasses (cfg : ServerConfig) (now : Int) (ex : ExchangeOutcome)
    (api : ApiTokenOutcome) (s : ServerState) : Bool :=
  match ensureClient cfg now ex api s with
  | Except.error _ => false
  | Except.ok s1 => !(ensureValidToken cfg now ex api s1.cache).threw

/-- C10: the method-validation gate of `callModularTool`.
(1) A dispatch result carries exactly the tool's module and a method
name drawn from `tool.methods`, taken from a truthy `method` argument;
(2) hence with the `method` argument absent (falsy) or not among the
declared methods, the module method is never invoked; (3) when the
authentication phase does not throw and `method` is absent, the call
fails with the message listing the available methods; (4) likewise
when `method` is present but undeclared, with the invalid-method
message listing the available methods. -/
theorem methodValidation_gate :
    (∀ (cfg : ServerConfig) (now : Int) (ex : ExchangeOutcome)
        (api : ApiTokenOutcome) (hm : String → Bool)
        (hmeth : String → String → Bool) (tool : ToolDefinition)
        (am : Option String) (s : ServerState) (mo me : String),
      (callModularTool cfg now ex api hm hmeth tool am s).1 = Except.ok (mo, me) →
      mo = tool.module ∧ tool.methods.contains me = true ∧
        truthyStr am = true ∧ am.getD "" = me) ∧
    (∀ (cfg : ServerConfig) (now : Int) (ex : ExchangeOutcome)
        (api : ApiTokenOutcome) (hm : String → Bool)
        (hmeth : String → String → Bool) (tool : ToolDefinition)
        (am : Option String) (s : ServerState),
      (truthyStr am = false ∨ tool.methods.contains (am.getD "") = false) →
      ∀ mo me : String,
        (callModularTool cfg now ex api hm hmeth tool am s).1 ≠ Except.ok (mo, me)) ∧
    (∀ (cfg : ServerConfig) (now : Int) (ex : ExchangeOutcome)
        (api : ApiTokenOutcome) (hm : String → Bool)
        (hmeth : String → String → Bool) (tool : ToolDefinition)
        (am : Option String) (s : ServerState),
      authPasses cfg now ex api s = true → truthyStr am = false →
      (callModularTool cfg now ex api hm hmeth tool am s).1 =
        Except.error (ToolError.message (missingMethodMsg tool.methods))) ∧
    (∀ (cfg : ServerConfig) (now : Int) (ex : ExchangeOutcome)
        (api : ApiTokenOutcome) (hm : String → Bool)
        (hmeth : String → String → Bool) (tool : ToolDefinition)
        (am : Option String) (s : ServerState),
      authPasses cfg now ex api s = true → truthyStr am = true →
      tool.methods.contains (am.getD "") = false →
      (callModularTool cfg now ex api hm hmeth tool am s).1 =
        Except.error (ToolError.message (invalidMethodMsg (am.getD "") tool.methods))) := by
  have hmain : ∀ (cfg : ServerConfig) (now : Int) (ex : ExchangeOutcome)
      (api : ApiTokenOutcome) (hm : String → Bool)
      (hmeth : String → String → Bool) (tool : ToolDefinition)
      (am : Option String) (s : ServerState) (mo me : String),
      (callModularTool cfg now ex api hm hmeth tool am s).1 = Except.ok (mo, me) →
      mo = tool.module ∧ tool.methods.contains me = true ∧
        truthyStr am = true ∧ am.getD "" = me := by
    intro cfg now ex api hm hmeth tool am s mo me h
    cases hec : ensureClient cfg now ex api s with
    | error e => simp [callModularTool, hec] at h
    | ok s1 =>
      simp only [callModularTool, hec] at h
      split at h
      · exact absurd h (by simp)
      · split at h
        · exact absurd h (by simp)
        · rename_i ham
          split at h
          · exact absurd h (by simp)
          · rename_i hcont
            split at h
            · exact absurd h (by simp)
            · split at h
              · exact absurd h (by simp)
              · simp only [Except.ok.injEq, Prod.mk.injEq] at h
                obtain ⟨h1, h2⟩ := h
                have ham' : truthyStr am = true := by
                  revert ham
                  cases truthyStr am <;> simp
                have hcont' : tool.methods.contains (am.getD "") = true := by
                  revert hcont
                  cases tool.methods.contains (am.getD "") <;> simp
                exact ⟨h1.symm, h2 ▸ hcont', ham', h2⟩
  refine ⟨hmain, ?_, ?_, ?_⟩
  · intro cfg now ex api hm hmeth tool am s hbad mo me h
    obtain ⟨-, hc, ha, hg⟩ := hmain cfg now ex api hm hmeth tool am s mo me h
    rcases hbad with hb | hb
    · rw [ha] at hb
      exact absurd hb (by simp)
    · rw [hg] at hb
      rw [hc] at hb
      exact absurd hb (by simp)
  · intro cfg now ex api hm hmeth tool am s hpass ham
    cases hec : ensureClient cfg now ex api s with
    | error e => simp [authPasses, hec] at hpass
    | ok s1 =>
      have ht : (ensureValidToken cfg now ex api s1.cache).threw = false := by
        simpa [authPasses, hec] using hpass
      simp [callModularTool, hec, ht, ham]
  · intro cfg now ex api hm hmeth tool am s hpass ham hcont
    cases hec : ensureClient cfg now ex api s with
    | error e => simp [authPasses, hec] at hpass
    | ok s1 =>
      have ht : (ensureValidToken cfg now ex api s1.cache).threw = false := by
        simpa [authPasses, hec] using hpass
      have hcont' : ¬ (am.getD "") ∈ tool.methods := by
        simpa using hcont
      simp [callModularTool, hec, ht, ham, hcont']

/-- C10 witness: an unauthenticated configuration, a created client
and the undeclared method name "bad" against the tool with method
list ["get_observations"]: the call fails with the invalid-method
message listing the available methods, obtained through the gate
theorem. -/
theorem methodValidation_gate_witness :
    (callModularTool
        { baseURL := "", clientId := "", clientSecret := "",
          username := "", password := "" } 0
        ExchangeOutcome.throws ApiTokenOutcome.throws
        (fun _ => true) (fun _ _ => true) toolObs (some "bad")
        { hasClient := true, cache := emptyCache }).1 =
      Except.error (ToolError.message (invalidMethodMsg "bad" toolObs.methods)) := by
  have h := methodValidation_gate.2.2.2
    { baseURL := "", clientId := "", clientSecret := "",
      username := "", password := "" } 0
    ExchangeOutcome.throws ApiTokenOutcome.throws
    (fun _ => true) (fun _ _ => true) toolObs (some "bad")
    { hasClient := true, cache := emptyCache }
    (by decide) (by decide) (by decide)
  simpa using h

end INatMCP

namespace INatMCP

/-!
Embedding of src/cli.ts (the v2.0.0 variant, whose `parseArgs`
validates the credential set at startup, lines 5-68). Flag values are
only stored when the following argument is truthy; each recognised
flag consumes the following argument; environment variables fill any
field left falsy.
-/

/-- The `Partial AuthConfig` being built by the cli argument loop,
plus the help flag. -/
structure PartialAuth where
  clientId : Option String
  clientSecret : Option String
  username : Option String
  password : Option String
  baseURL : Option String
  help : Bool
deriving DecidableEq, Repr

/-- The state before the argument loop: nothing set. -/
def emptyPartialAuth : PartialAuth :=
  { clientId := none, clientSecret := none, username := none,
    password := none, baseURL := none, help := false }

/-- The five `INAT_*` environment variables read by src/cli.ts
lines 42-46 (`none` = unset). -/
structure EnvVars where
  clientId : Option String
  clientSecret : Option String
  username : Option String
  password : Option String
  baseURL : Option String
deriving DecidableEq, Repr

/-- An environment with no variable set. -/
def emptyEnv : EnvVars :=
  { clientId := none, clientSecret := none, username := none,
    password := none, baseURL := none }

/-- JavaScript `a || b` on optional strings: keeps `a` when truthy,
else yields `b`. -/
def jsOrOpt (a b : Option String) : Option String :=
  if truthyStr a then a else b

/-- The `for` loop of src/cli.ts lines 9-39: a `switch` on the current
argument; a value flag stores the next argument when that argument is
truthy and always skips it; `--help`/`-h` set the help flag; anything
else is ignored. A value flag in last position has no next argument
and stores nothing. -/
def parseLoop : List String → PartialAuth → PartialAuth
  | [], c => c
  | [a], c =>
    if a = "--help" || a = "-h" then { c with help := true } else c
  | a :: v :: rest, c =>
    if a = "--help" || a = "-h" then parseLoop (v :: rest) { c with help := true }
    else if a = "--client-id" then
      parseLoop rest (if v != "" then { c with clientId := some v } else c)
    else if a = "--client-secret" then
      parseLoop rest (if v != "" then { c with clientSecret := some v } else c)
    else if a = "--username" then
      parseLoop rest (if v != "" then { c with username := some v } else c)
    else if a = "--password" then
      parseLoop rest (if v != "" then { c with password := some v } else c)
    else if a = "--base-url" then
      parseLoop rest (if v != "" then { c with baseURL := some v } else c)
    else parseLoop (v :: rest) c

/-- src/cli.ts lines 42-46: each field falls back to its environment
variable. -/
def mergeEnv (c : PartialAuth) (env : EnvVars) : PartialAuth :=
  { c with
    clientId := jsOrOpt c.clientId env.clientId,
    clientSecret := jsOrOpt c.clientSecret env.clientSecret,
    username := jsOrOpt c.username env.username,
    password := jsOrOpt c.password env.password,
    baseURL := jsOrOpt c.baseURL env.baseURL }

/-- The complete credential record handed to the server when all four
fields are present. -/
structure AuthConfig where
  clientId : String
  clientSecret : String
  username : String
  password : String
  baseURL : Option String
deriving DecidableEq, Repr

/-- src/cli.ts `parseArgs` (lines 5-68): parse the flags, merge the
environment, and validate: when some but not all of the four
credential fields are truthy, print the enumeration of the four
required fields and `process.exit(1)` - modelled as `Except.error`.
Otherwise return the complete config (or `none`) and the help flag. -/
def parseArgs (args : List String) (env : EnvVars) :
    Except Unit (Option AuthConfig × Bool) :=
  let c := mergeEnv (parseLoop args emptyPartialAuth) env
  let hasAnyAuth := truthyStr c.clientId || truthyStr c.clientSecret ||
    truthyStr c.username || truthyStr c.password
  let hasCompleteAuth := truthyStr c.clientId && truthyStr c.clientSecret &&
    truthyStr c.username && truthyStr c.password
  if hasAnyAuth && !hasCompleteAuth then Except.error ()
  else
    Except.ok
      (if hasCompleteAuth then
        some { clientId := c.clientId.getD "", clientSecret := c.clientSecret.getD "",
               username := c.username.getD "", password := c.password.getD "",
               baseURL := c.baseURL }
      else none, c.help)

/-- Whether `parseArgs` reaches the fatal `process.exit(1)`. -/
def parseArgsExits (args : List String) (env : EnvVars) : Bool :=
  match parseArgs args env with
  | Except.error _ => true
  | Except.ok _ => false

/-- The environment configuring exactly the chosen subset of the four
credential fields (value "x"). -/
def envOf (a b c d : Bool) : EnvVars :=
  { clientId := if a then some "x" else none,
    clientSecret := if b then some "x" else none,
    username := if c then some "x" else none,
    password := if d then some "x" else none,
    baseURL := none }

/-- The flag list configuring exactly the chosen subset of the four
credential fields (value "x"). -/
def flagsOf (a b c d : Bool) : List String :=
  (if a then ["--client-id", "x"] else []) ++
  (if b then ["--client-secret", "x"] else []) ++
  (if c then ["--username", "x"] else []) ++
  (if d then ["--password", "x"] else [])

/-- C5 counterexample: the number of credential subsets on which the
startup check exits fatally is 14, not 15 - a 4-element set has 14
non-empty proper subsets, so the claim's "15 non-empty proper
subsets" miscounts the failing configurations of the program. -/
theorem partialConfig_count_counterexample :
    (Finset.univ.filter
        (fun v : Bool × Bool × Bool × Bool =>
          parseArgsExits [] (envOf v.1 v.2.1 v.2.2.1 v.2.2.2) = true)).card = 14 ∧
    (Finset.univ.filter
        (fun v : Bool × Bool × Bool × Bool =>
          parseArgsExits [] (envOf v.1 v.2.1 v.2.2.1 v.2.2.2) = true)).card ≠ 15 := by
  decide

/-- C5 amended: configuring any of the 14 non-empty proper subsets of
the four credential fields - whether through environment variables or
cli flags - makes `parseArgs` exit fatally before the server is
constructed (its message enumerates the four required fields), while
the empty set and the full set proceed. -/
theorem partialConfig_rejection :
    ∀ a b c d : Bool,
      parseArgsExits [] (envOf a b c d) =
        ((a || b || c || d) && !(a && b && c && d)) ∧
      parseArgsExits (flagsOf a b c d) emptyEnv =
        ((a || b || c || d) && !(a && b && c && d)) := by
  decide

end INatMCP

namespace INatMCP

/-!
Interleaving model for concurrent tool calls (claim C9). A caller
executing `ensureValidToken` runs synchronously from the
`isTokenValid` check through issuing the `post_oauth_token` request
(src/server.ts lines 282-284 and 166-188 contain no `await` before
that call), then suspends; when the network call settles, the caller
resumes and runs the cache writes of lines 193-204 (or the rethrow).
The host runtime may run the other caller while the first is
suspended. A caller is therefore a two-phase process: `ready`
(check-and-issue, atomic) and `waiting` (apply the outcome); the
token cache and the count of issued exchange calls are shared.
-/

/-- The phase of one caller inside `ensureValidToken`. -/
inductive Phase where
  | ready : Phase
  | waiting : Phase
  | done : Phase
deriving DecidableEq, Repr

/-- The shared state of two concurrent privileged calls: the single
token cache of the server plus both callers' phases, and the number
of exchange network calls issued so far. -/
structure ConcState where
  cache : TokenCache
  phaseA : Phase
  phaseB : Phase
  exchangeCount : Nat
deriving DecidableEq, Repr

/-- One scheduling step of one caller: in `ready`, run the
`isTokenValid` check - on a valid cache the caller finishes with no
network call, otherwise it issues its exchange (incrementing the
shared count) and suspends; in `waiting`, the settled outcome is
applied to the shared cache exactly as `refreshAccessToken` writes
it. -/
def callerStep (now : Int) (ex : ExchangeOutcome) (api : ApiTokenOutcome)
    (ph : Phase) (cache : TokenCache) (count : Nat) : Phase × TokenCache × Nat :=
  match ph with
  | Phase.ready =>
    if isTokenValid cache now then (Phase.done, cache, count)
    else (Phase.waiting, cache, count + 1)
  | Phase.waiting => (Phase.done, (refreshAccessToken now ex api cache).2, count)
  | Phase.done => (Phase.done, cache, count)

/-- Run one step of the scheduled caller (`true` = caller A). -/
def concStep (now : Int) (exA exB : ExchangeOutcome) (apiA apiB : ApiTokenOutcome)
    (s : ConcState) (who : Bool) : ConcState :=
  if who then
    let r := callerStep now exA apiA s.phaseA s.cache s.exchangeCount
    { s with phaseA := r.1, cache := r.2.1, exchangeCount := r.2.2 }
  else
    let r := callerStep now exB apiB s.phaseB s.cache s.exchangeCount
    { s with phaseB := r.1, cache := r.2.1, exchangeCount := r.2.2 }

/-- Run a schedule of caller steps from a starting state. -/
def runSchedule (now : Int) (exA exB : ExchangeOutcome) (apiA apiB : ApiTokenOutcome)
    (s0 : ConcState) (sched : List Bool) : ConcState :=
  sched.foldl (concStep now exA exB apiA apiB) s0

/-- Two privileged calls arriving with the initial (empty, hence
invalid) cache. -/
def initConc : ConcState :=
  { cache := emptyCache, phaseA := Phase.ready, phaseB := Phase.ready,
    exchangeCount := 0 }

/-- A successful exchange outcome: token "abc", 3600-second TTL. -/
def okOutcome : ExchangeOutcome :=
  ExchangeOutcome.response
    (some { access_token := some "abc", expires_in := some 3600,
            token_type := none })

/-- C9 counterexample: two concurrent privileged calls with an
invalid cache under the interleaved schedule A-issues, B-issues,
A-completes, B-completes. Both exchanges succeed, both callers
finish, and TWO exchange network calls are issued, not exactly one:
after B runs its validity check while A is suspended on the network,
nothing stops B from issuing its own exchange. -/
theorem singleFlight_counterexample :
    (runSchedule 0 okOutcome okOutcome ApiTokenOutcome.throws ApiTokenOutcome.throws
        initConc [true, false, true, false]).exchangeCount = 2 ∧
    (runSchedule 0 okOutcome okOutcome ApiTokenOutcome.throws ApiTokenOutcome.throws
        initConc [true, false, true, false]).phaseA = Phase.done ∧
    (runSchedule 0 okOutcome okOutcome ApiTokenOutcome.throws ApiTokenOutcome.throws
        initConc [true, false, true, false]).phaseB = Phase.done ∧
    (2 : Nat) ≠ 1 := by
  decide

/-- C9 amended: the code has no single-flight guard, so each caller
that observes an invalid cache issues its own exchange. Under the
interleaved schedule, after both callers have run their checks, both
are suspended on their own exchange simultaneously (two in flight)
with the count already at 2; only when the calls are serialized (the
first caller finishes before the second checks) does the second
caller observe the freshly written valid token and issue no exchange,
for a total of exactly one. -/
theorem singleFlight_absent :
    ((runSchedule 0 okOutcome okOutcome ApiTokenOutcome.throws ApiTokenOutcome.throws
        initConc [true, false]).phaseA = Phase.waiting ∧
     (runSchedule 0 okOutcome okOutcome ApiTokenOutcome.throws ApiTokenOutcome.throws
        initConc [true, false]).phaseB = Phase.waiting ∧
     (runSchedule 0 okOutcome okOutcome ApiTokenOutcome.throws ApiTokenOutcome.throws
        initConc [true, false]).exchangeCount = 2) ∧
    ((runSchedule 0 okOutcome okOutcome ApiTokenOutcome.throws ApiTokenOutcome.throws
        initConc [true, true, false, false]).exchangeCount = 1 ∧
     (runSchedule 0 okOutcome okOutcome ApiTokenOutcome.throws ApiTokenOutcome.throws
        initConc [true, true, false, false]).phaseA = Phase.done ∧
     (runSchedule 0 okOutcome okOutcome ApiTokenOutcome.throws ApiTokenOutcome.throws
        initConc [true, true, false, false]).phaseB = Phase.done) := by
  decide

end INatMCP
